import Mathlib

/-!
Verification of the sales/forecast ETL core: a shallow embedding of the
extractor, validator, normalizer, key standardizer and dimension loader,
with theorems about the standardization, validation, normalization,
dimension-reconciliation and pipeline behaviour.

Numeric sales values are modelled as rationals; material numbers, periods
and region codes as strings; nullable columns as Option; the warehouse as
explicit append-only lists whose surrogate ids are 1-based positions.
-/

namespace ETL

/-! ## Key standardizer (DatabaseLoader._standardize_material_number) -/

/-- Python str.replace(".0", ""): delete every non-overlapping occurrence
of the two-character pattern ".0", scanning left to right. -/
def removeDot0 : List Char → List Char
  | [] => []
  | [c] => [c]
  | c :: d :: rest =>
    if c = '.' ∧ d = '0' then removeDot0 rest
    else c :: removeDot0 (d :: rest)

/-- Python str.zfill(8): left-pad with zeros to width 8 (identity when
already at least 8 long; the inputs here carry no sign character). -/
def zfill8 (l : List Char) : List Char := List.replicate (8 - l.length) '0' ++ l

/-- Lines 73-74 of loader.py: str(value).replace(".0", "") followed by
keeping only digit characters. -/
def cleanDigits (s : String) : List Char := (removeDot0 s.data).filter Char.isDigit

/-- DatabaseLoader._standardize_material_number on an already stringified
value: if any digits survive cleaning, truncate to the first 8 and
zero-pad to width 8; otherwise fall back to the original string. -/
def standardize_material (s : String) : String :=
  if 0 < (cleanDigits s).length then
    String.mk (zfill8 (if 8 < (cleanDigits s).length then (cleanDigits s).take 8
      else cleanDigits s))
  else s

/-- The same function applied to a Python int input: str(value) first. -/
def standardize_material_num (n : Int) : String := standardize_material (toString n)

lemma removeDot0_of_all_digits : ∀ l : List Char, (∀ c ∈ l, c.isDigit = true) →
    removeDot0 l = l := by
  intro l
  induction l using removeDot0.induct with
  | case1 => intro _; rfl
  | case2 c => intro _; rfl
  | case3 c d rest h ih =>
    intro hall
    exfalso
    have : ('.' : Char).isDigit = true := by
      have := hall c (by simp)
      rwa [h.1] at this
    simp at this
  | case4 c d rest h ih =>
    intro hall
    rw [removeDot0, if_neg h, ih (fun x hx => hall x (List.mem_cons_of_mem c hx))]

lemma mem_zfill8 {c : Char} {l : List Char} (h : c ∈ zfill8 l) : c = '0' ∨ c ∈ l := by
  rcases List.mem_append.mp h with h1 | h2
  · exact Or.inl (List.eq_of_mem_replicate h1)
  · exact Or.inr h2

lemma zfill8_length {l : List Char} (h : l.length ≤ 8) : (zfill8 l).length = 8 := by
  simp [zfill8]
  omega

lemma zfill8_of_length_eq {l : List Char} (h : l.length = 8) : zfill8 l = l := by
  simp [zfill8, h]

/-- Every character of the padded-and-truncated output is a digit. -/
lemma standardized_digits {s : String} (h : 0 < (cleanDigits s).length) :
    ∀ c ∈ (standardize_material s).data, c.isDigit = true := by
  intro c hc
  rw [standardize_material, if_pos h] at hc
  rcases mem_zfill8 hc with h0 | hmem
  · subst h0; decide
  · have hclean : c ∈ cleanDigits s := by
      by_cases h8 : 8 < (cleanDigits s).length
      · rw [if_pos h8] at hmem
        exact List.take_subset 8 _ hmem
      · rwa [if_neg h8] at hmem
    exact (List.mem_filter.mp hclean).2

lemma standardized_length {s : String} (h : 0 < (cleanDigits s).length) :
    (standardize_material s).data.length = 8 := by
  rw [standardize_material, if_pos h]
  show (zfill8 _).length = 8
  apply zfill8_length
  by_cases h8 : 8 < (cleanDigits s).length
  · rw [if_pos h8]
    exact List.length_take_le 8 (cleanDigits s)
  · rw [if_neg h8]
    omega

lemma standardize_material_def (s : String) : standardize_material s =
    if 0 < (cleanDigits s).length then
      String.mk (zfill8 (if 8 < (cleanDigits s).length then (cleanDigits s).take 8
        else cleanDigits s))
    else s := rfl

/-- Standardization is idempotent. -/
lemma standardize_material_idem (s : String) :
    standardize_material (standardize_material s) = standardize_material s := by
  by_cases h : 0 < (cleanDigits s).length
  · have hdig := standardized_digits h
    have hlen := standardized_length h
    have hclean2 : cleanDigits (standardize_material s) = (standardize_material s).data := by
      rw [cleanDigits, removeDot0_of_all_digits _ hdig, List.filter_eq_self.mpr hdig]
    conv_lhs => rw [standardize_material_def]
    rw [hclean2, hlen]
    rw [if_pos (by omega), if_neg (by omega)]
    rw [zfill8_of_length_eq hlen]
  · have e : standardize_material s = s := by
      rw [standardize_material, if_neg h]
    rw [e]
    exact e

/-- C3: padding, truncation and standardization-equivalence on the
spec's concrete examples: "42" pads to "00000042"; "123456789" is
truncated to its first 8 digits; "12345678", "12345678.0" and the
number 12345678 all standardize to "12345678". -/
theorem standardize_padding_truncation_examples :
    standardize_material "42" = "00000042" ∧
    standardize_material "123456789" = "12345678" ∧
    standardize_material "12345678" = "12345678" ∧
    standardize_material "12345678.0" = "12345678" ∧
    standardize_material_num 12345678 = "12345678" := by
  decide

/-- C4: standardize_material is idempotent on every string input (both
the digit path and the lossy fallback path) and on every numeric input. -/
theorem standardize_idempotent :
    (∀ s : String, standardize_material (standardize_material s) = standardize_material s) ∧
    (∀ n : Int, standardize_material (standardize_material_num n) = standardize_material_num n) :=
  ⟨standardize_material_idem, fun _ => standardize_material_idem _⟩

/-- C8 counterexample: the claim predicts that only a trailing ".0" is
stripped so that "10.05" keeps all four digits and yields "00001005";
the code deletes every ".0" occurrence, and "10.05" actually yields
"00000105". -/
theorem standardize_interior_dot_zero_counterexample :
    standardize_material "10.05" = "00000105" ∧
    standardize_material "10.05" ≠ "00001005" := by
  decide

/-- C8 amended: step 2 deletes every non-overlapping ".0" occurrence
(left to right) from the stringified input, not only a trailing one: a
trailing artifact "12345678.0" is stripped, but the interior ".0" of
"10.05" is deleted too, losing a digit position and yielding "00000105". -/
theorem standardize_strips_every_dot_zero :
    removeDot0 "10.05".data = "105".data ∧
    standardize_material "10.05" = "00000105" ∧
    standardize_material "12345678.0" = "12345678" := by
  decide

/-! ## Validator (DataValidator.validate_sales_data) -/

/-- A sales row as seen by the validator: the five required columns, each
nullable (pandas NaN modelled as none). -/
structure SalesRow where
  PERIOD : Option String
  MATERIAL_NBR : Option String
  GROSS_SALES : Option ℚ
  NET_SALES : Option ℚ
  REGION_CODE : Option String
deriving DecidableEq

/-- A sales DataFrame: its column-name set plus its rows. -/
structure SalesDf where
  cols : List String
  rows : List SalesRow
deriving DecidableEq

def requiredSalesCols : List String :=
  ["PERIOD", "MATERIAL_NBR", "GROSS_SALES", "NET_SALES", "REGION_CODE"]

/-- notna().all(axis=1) over the required columns. -/
def row_notna (r : SalesRow) : Bool :=
  r.PERIOD.isSome && r.MATERIAL_NBR.isSome && r.GROSS_SALES.isSome &&
    r.NET_SALES.isSome && r.REGION_CODE.isSome

/-- The business-rule mask NET_SALES > GROSS_SALES * (1 + tolerance) with
tolerance = 0.01; a pandas comparison against NaN is false. -/
def net_exceeds_tolerance (r : SalesRow) : Bool :=
  match r.NET_SALES, r.GROSS_SALES with
  | some n, some g => decide (g * (1 + 1/100) < n)
  | _, _ => false

/-- DataValidator._validate_business_rules: drop the rows flagged by the
tolerance mask, keep the rest in order. -/
def validate_business_rules (rows : List SalesRow) : List SalesRow :=
  rows.filter (fun r => !net_exceeds_tolerance r)

/-- DataValidator.validate_sales_data: empty result when a required
column is missing; otherwise drop null-bearing rows, then apply the
business rules. -/
def validate_sales_data (df : SalesDf) : SalesDf :=
  if requiredSalesCols.all (fun c => df.cols.contains c) then
    ⟨df.cols, validate_business_rules (df.rows.filter row_notna)⟩
  else ⟨[], []⟩

/-- The 0.5%-over row of the spec example. -/
def salesRow1005 : SalesRow :=
  ⟨some "202301", some "00000042", some 1000, some 1005, some "1"⟩

/-- The 2%-over row of the spec example. -/
def salesRow1020 : SalesRow :=
  ⟨some "202301", some "00000042", some 1000, some 1020, some "1"⟩

lemma net_exceeds_tolerance_1005 : net_exceeds_tolerance salesRow1005 = false := by
  simp [net_exceeds_tolerance, salesRow1005]
  norm_num

lemma net_exceeds_tolerance_1020 : net_exceeds_tolerance salesRow1020 = true := by
  simp [net_exceeds_tolerance, salesRow1020]
  norm_num

/-- C5: every row surviving validate_sales_data satisfies
NET_SALES <= GROSS_SALES * 1.01, and on the spec's concrete input
the gross=1000/net=1005 row is kept while the gross=1000/net=1020
row is dropped (dropped, not clamped). -/
theorem validated_sales_within_tolerance :
    (∀ (df : SalesDf) (r : SalesRow), r ∈ (validate_sales_data df).rows →
      ∃ g n : ℚ, r.GROSS_SALES = some g ∧ r.NET_SALES = some n ∧ n ≤ g * (1 + 1/100)) ∧
    validate_sales_data ⟨requiredSalesCols, [salesRow1005, salesRow1020]⟩ =
      ⟨requiredSalesCols, [salesRow1005]⟩ := by
  constructor
  · intro df r hr
    rw [validate_sales_data] at hr
    by_cases hc : requiredSalesCols.all (fun c => df.cols.contains c)
    · rw [if_pos hc] at hr
      simp only [validate_business_rules, List.mem_filter] at hr
      obtain ⟨hr1, hr2⟩ := hr
      have hna : row_notna r = true := hr1.2
      simp only [row_notna, Bool.and_eq_true, Option.isSome_iff_exists] at hna
      obtain ⟨⟨⟨⟨⟨_, _⟩, ⟨_, _⟩⟩, g, hg⟩, n, hn⟩, _, _⟩ := hna
      refine ⟨g, n, hg, hn, ?_⟩
      simp only [net_exceeds_tolerance, hn, hg, Bool.not_eq_true] at hr2
      simpa using hr2
    · rw [if_neg hc] at hr
      simp at hr
  · rw [validate_sales_data, if_pos (by decide)]
    have h1 : row_notna salesRow1005 = true := rfl
    have h2 : row_notna salesRow1020 = true := rfl
    simp [validate_business_rules, List.filter, h1, h2,
      net_exceeds_tolerance_1005, net_exceeds_tolerance_1020]

/-- Witness for C5: instantiating the invariant at the concrete kept row. -/
theorem validated_sales_within_tolerance_witness :
    ∃ g n : ℚ, salesRow1005.GROSS_SALES = some g ∧ salesRow1005.NET_SALES = some n ∧
      n ≤ g * (1 + 1/100) :=
  validated_sales_within_tolerance.1
    ⟨requiredSalesCols, [salesRow1005, salesRow1020]⟩ salesRow1005
    (by rw [validated_sales_within_tolerance.2]; simp)

/-! ## Normalizer (DataNormalizer.normalize_sales_data) -/

/-- Python str.lower(), character by character. -/
def pyLower (s : String) : String := String.mk (s.data.map Char.toLower)

/-- Does the candidate list start with the pattern? -/
def startsWithL : List Char → List Char → Bool
  | [], _ => true
  | _ :: _, [] => false
  | p :: ps, c :: cs => p = c && startsWithL ps cs

/-- Python substring containment (the `tok in path` test). -/
def containsL (pat : List Char) : List Char → Bool
  | [] => startsWithL pat []
  | c :: cs => startsWithL pat (c :: cs) || containsL pat cs

/-- Python int() restricted to the digit strings this pipeline feeds it. -/
def parseNatL : List Char → Option Nat
  | [] => none
  | cs => if cs.all Char.isDigit then
      some (cs.foldl (fun acc c => acc * 10 + (c.toNat - 48)) 0)
    else none

def pyInt (s : String) : Option Int := (parseNatL s.data).map Int.ofNat

/-- Python str.strip(). -/
def pyStrip (s : String) : String :=
  String.mk (((s.data.dropWhile Char.isWhitespace).reverse.dropWhile
    Char.isWhitespace).reverse)

/-- pandas astype(str) on a nullable string column: NaN prints as "nan". -/
def pyStrOfOpt : Option String → String
  | none => "nan"
  | some s => s

/-- A sales row entering the normalizer, after validation and renaming. -/
structure RawNormRow where
  PERIOD : String
  MATERIAL_NBR : String
  GROSS_SALES : ℚ
  NET_SALES : ℚ
  REGION_CODE : Option String
deriving DecidableEq

/-- A canonical normalized sales row. -/
structure NormSalesRow where
  period : String
  material_number : String
  gross_sales : ℚ
  net_sales : ℚ
  region_code : Option String
  year : Int
deriving DecidableEq

/-- The variant-collapsing region table of normalizer.py lines 47-52. -/
def region_mapping : List (String × String) :=
  [("0", "4"), ("5", "4"), ("6", "4"), ("7", "4"), ("1", "1"), ("2", "2"), ("4", "4")]

/-- Region resolution of normalizer.py lines 36-53: the whole block is
guarded by `if file_path:` (none and "" are falsy); inside it, a path
containing "asia"/"emea"/"americas" forces the fixed code, and only the
no-token branch remaps through region_mapping (unmapped becomes none). -/
def resolve_region_code (file_path : Option String) (rc : Option String) : Option String :=
  match file_path with
  | none => rc
  | some p =>
    if p = "" then rc
    else
      if containsL "asia".data (pyLower p).data then some "4"
      else if containsL "emea".data (pyLower p).data then some "1"
      else if containsL "americas".data (pyLower p).data then some "2"
      else region_mapping.lookup (pyStrOfOpt rc)

/-- One row of normalize_sales_data: region resolution, dot removal from
the period, year = int(period[:4]), material trimmed; none models the
exception path (year unparsable) that empties the whole frame. -/
def normalize_sales_row (fp : Option String) (r : RawNormRow) : Option NormSalesRow :=
  match pyInt (String.mk ((r.PERIOD.data.filter (fun c => c ≠ '.')).take 4)) with
  | none => none
  | some y =>
    some ⟨String.mk (r.PERIOD.data.filter (fun c => c ≠ '.')), pyStrip r.MATERIAL_NBR,
      r.GROSS_SALES, r.NET_SALES, resolve_region_code fp r.REGION_CODE, y⟩

/-- DataNormalizer.normalize_sales_data over the whole frame; any row
failure is the frame-wide exception path (empty result), modelled none. -/
def normalize_sales_data (fp : Option String) : List RawNormRow → Option (List NormSalesRow)
  | [] => some []
  | r :: rest =>
    match normalize_sales_row fp r, normalize_sales_data fp rest with
    | some a, some l => some (a :: l)
    | _, _ => none

lemma normalize_sales_row_region {fp : Option String} {r : RawNormRow} {a : NormSalesRow}
    (h : normalize_sales_row fp r = some a) :
    a.region_code = resolve_region_code fp r.REGION_CODE := by
  rw [normalize_sales_row] at h
  cases hy : pyInt (String.mk ((r.PERIOD.data.filter (fun c => c ≠ '.')).take 4)) with
  | none => rw [hy] at h; exact absurd h (by simp)
  | some y =>
    rw [hy] at h
    cases h
    rfl

lemma normalize_sales_region_link (fp : Option String) :
    ∀ (rows : List RawNormRow) (out : List NormSalesRow),
      normalize_sales_data fp rows = some out →
      out.map NormSalesRow.region_code =
        rows.map (fun r => resolve_region_code fp r.REGION_CODE) := by
  intro rows
  induction rows with
  | nil => intro out h; cases h; rfl
  | cons r rest ih =>
    intro out h
    rw [normalize_sales_data] at h
    cases ha : normalize_sales_row fp r with
    | none => rw [ha] at h; exact absurd h (by simp)
    | some a =>
      cases hl : normalize_sales_data fp rest with
      | none => rw [ha, hl] at h; exact absurd h (by simp)
      | some l =>
        rw [ha, hl] at h
        cases h
        simp [normalize_sales_row_region ha, ih l hl]

/-- C6 counterexample: with no file path hint supplied at all, the claim
says region_code "0" is remapped to "4" by the variant-collapsing table;
the code leaves it untouched at "0", because the remapping lives inside
the `if file_path:` guard (the table itself would map "0" to "4"). -/
theorem region_remap_without_path_counterexample :
    normalize_sales_data none [⟨"2023.01", "123", 100, 90, some "0"⟩] =
      some [⟨"202301", "123", 100, 90, some "0", 2023⟩] ∧
    (some "0" : Option String) ≠ some "4" ∧
    region_mapping.lookup (pyStrOfOpt (some "0")) = some "4" := by
  decide

/-- C6 amended: (1) a supplied file path containing "asia"/"emea"/
"americas" (checked in that order) forces region_code to "4"/"1"/"2";
(2) a supplied non-empty path containing none of the tokens remaps
region_code through region_mapping (unmapped codes become null); (3) when
no file path is supplied, region codes pass through entirely unchanged;
and normalize_sales_data resolves every row's region this way. -/
theorem region_resolution_precedence_amended :
    (∀ (p : String) (rc : Option String),
      containsL "asia".data (pyLower p).data = true →
      resolve_region_code (some p) rc = some "4") ∧
    (∀ (p : String) (rc : Option String),
      containsL "asia".data (pyLower p).data = false →
      containsL "emea".data (pyLower p).data = true →
      resolve_region_code (some p) rc = some "1") ∧
    (∀ (p : String) (rc : Option String),
      containsL "asia".data (pyLower p).data = false →
      containsL "emea".data (pyLower p).data = false →
      containsL "americas".data (pyLower p).data = true →
      resolve_region_code (some p) rc = some "2") ∧
    (∀ (p : String) (rc : Option String), p ≠ "" →
      containsL "asia".data (pyLower p).data = false →
      containsL "emea".data (pyLower p).data = false →
      containsL "americas".data (pyLower p).data = false →
      resolve_region_code (some p) rc = region_mapping.lookup (pyStrOfOpt rc)) ∧
    (∀ rc : Option String, resolve_region_code none rc = rc) ∧
    (∀ (fp : Option String) (rows : List RawNormRow) (out : List NormSalesRow),
      normalize_sales_data fp rows = some out →
      out.map NormSalesRow.region_code =
        rows.map (fun r => resolve_region_code fp r.REGION_CODE)) := by
  have hne : ∀ p : String, containsL "asia".data (pyLower p).data = true → p ≠ "" := by
    intro p h hp
    subst hp
    exact absurd h (by decide)
  refine ⟨?_, ?_, ?_, ?_, fun _ => rfl, normalize_sales_region_link⟩
  · intro p rc h
    rw [resolve_region_code, if_neg (hne p h), if_pos h]
  · intro p rc h1 h2
    have hpne : p ≠ "" := by
      intro hp
      subst hp
      exact absurd h2 (by decide)
    rw [resolve_region_code, if_neg hpne, if_neg (by simp [h1]), if_pos h2]
  · intro p rc h1 h2 h3
    have hpne : p ≠ "" := by
      intro hp
      subst hp
      exact absurd h3 (by decide)
    rw [resolve_region_code, if_neg hpne, if_neg (by simp [h1]), if_neg (by simp [h2]),
      if_pos h3]
  · intro p rc hpne h1 h2 h3
    rw [resolve_region_code, if_neg hpne, if_neg (by simp [h1]), if_neg (by simp [h2]),
      if_neg (by simp [h3])]

/-- Witness for C6 amended: a non-empty path with no region token falls
through to the variant-collapsing table. -/
theorem region_resolution_precedence_amended_witness :
    resolve_region_code (some "data/sales_q1.csv") (some "5") =
      region_mapping.lookup (pyStrOfOpt (some "5")) :=
  region_resolution_precedence_amended.2.2.2.1 "data/sales_q1.csv" (some "5")
    (by decide) (by decide) (by decide) (by decide)

/-! ## Extractor (DataExtractor._read_csv and read_file) -/

/-- The encodings of extract.py line 33, in order. -/
inductive PyEncoding
  | utf8
  | latin1
  | iso88591
  | cp1252
deriving DecidableEq

def encoding_order : List PyEncoding :=
  [PyEncoding.utf8, PyEncoding.latin1, PyEncoding.iso88591, PyEncoding.cp1252]

/-- A CSV file is modelled by its decode outcome under each encoding. -/
def tryEncodings {α : Type} (decode : PyEncoding → Option α) : List PyEncoding → Option α
  | [] => none
  | e :: rest =>
    match decode e with
    | some t => some t
    | none => tryEncodings decode rest

/-- DataExtractor._read_csv: try each encoding in order, first success
wins, none if every attempt fails. -/
def read_csv {α : Type} (decode : PyEncoding → Option α) : Option α :=
  tryEncodings decode encoding_order

/-- The CSV branch of DataExtractor.read_file (the method the pipeline
invokes): a single pd.read_csv with encoding="utf-8"; a decode failure
escapes to the outer handler, which returns None. -/
def read_file_csv {α : Type} (decode : PyEncoding → Option α) : Option α :=
  decode PyEncoding.utf8

/-- A file readable under latin1 but not under utf-8. -/
def latin1OnlyFile : PyEncoding → Option Nat
  | PyEncoding.latin1 => some 0
  | _ => none

/-- C7 counterexample: the encoding fallback does not apply to the CSV
path the pipeline actually invokes: a latin1-only file is read by
_read_csv but read_file's CSV branch fails on it. -/
theorem csv_fallback_not_used_by_read_file_counterexample :
    read_csv latin1OnlyFile = some 0 ∧ read_file_csv latin1OnlyFile = none := by
  decide

/-- C7 amended: _read_csv tries UTF-8, Latin-1, ISO-8859-1, Windows-1252
in order, first success wins, and reports failure (None) only when every
encoding fails; but read_file — the CSV path invoked by the pipeline —
attempts UTF-8 only and reports failure when that single decode fails. -/
theorem csv_encoding_fallback_amended :
    (∀ (α : Type) (decode : PyEncoding → Option α) (t : α),
      decode PyEncoding.utf8 = some t → read_csv decode = some t) ∧
    (∀ (α : Type) (decode : PyEncoding → Option α) (t : α),
      decode PyEncoding.utf8 = none → decode PyEncoding.latin1 = some t →
      read_csv decode = some t) ∧
    (∀ (α : Type) (decode : PyEncoding → Option α) (t : α),
      decode PyEncoding.utf8 = none → decode PyEncoding.latin1 = none →
      decode PyEncoding.iso88591 = some t → read_csv decode = some t) ∧
    (∀ (α : Type) (decode : PyEncoding → Option α) (t : α),
      decode PyEncoding.utf8 = none → decode PyEncoding.latin1 = none →
      decode PyEncoding.iso88591 = none → decode PyEncoding.cp1252 = some t →
      read_csv decode = some t) ∧
    (∀ (α : Type) (decode : PyEncoding → Option α),
      (∀ e, decode e = none) → read_csv decode = none) ∧
    (∀ (α : Type) (decode : PyEncoding → Option α),
      read_file_csv decode = decode PyEncoding.utf8) := by
  refine ⟨?_, ?_, ?_, ?_, ?_, fun _ _ => rfl⟩
  · intro α d t h1
    simp [read_csv, encoding_order, tryEncodings, h1]
  · intro α d t h1 h2
    simp [read_csv, encoding_order, tryEncodings, h1, h2]
  · intro α d t h1 h2 h3
    simp [read_csv, encoding_order, tryEncodings, h1, h2, h3]
  · intro α d t h1 h2 h3 h4
    simp [read_csv, encoding_order, tryEncodings, h1, h2, h3, h4]
  · intro α d h
    simp [read_csv, encoding_order, tryEncodings, h]

/-- Witness for C7 amended: latin1 succeeds after a utf-8 failure. -/
theorem csv_encoding_fallback_amended_witness :
    read_csv latin1OnlyFile = some 0 :=
  csv_encoding_fallback_amended.2.1 Nat latin1OnlyFile 0 rfl rfl

/-! ## Pipeline orchestrator (ETLPipeline.run) -/

/-- The input_files mapping: an optional region-to-path map for sales and
an optional forecast path. -/
structure InputFiles where
  sales : Option (List (String × String))
  forecast : Option String

/-- The forecast half of ETLPipeline.run: an unreadable or empty forecast
file falls through to the final return True; empty validation or
normalization results and a failed load each return False. -/
def run_forecast {α : Type} (read_file : String → Option (List α))
    (validate_forecast : List α → List α)
    (normalize_forecast : List α → List α)
    (load_forecast : List α → Bool)
    (forecast : Option String) : Bool :=
  match forecast with
  | none => true
  | some path =>
    match read_file path with
    | none => true
    | some df =>
      if df.isEmpty then true
      else
        let v := validate_forecast df
        if v.isEmpty then false
        else
          let n := normalize_forecast v
          if n.isEmpty then false
          else load_forecast n

/-- ETLPipeline.run over abstract collaborators: per-region sales frames
are accumulated (skipping unreadable/empty/rejected inputs), an empty
accumulation or a failed combined load returns False, then the forecast
branch runs, and a run reaching the end returns True. -/
def ETLPipeline_run {α : Type} (read_file : String → Option (List α))
    (validate_sales : List α → List α)
    (normalize_sales : List α → String → List α)
    (load_sales : List α → Bool)
    (validate_forecast : List α → List α)
    (normalize_forecast : List α → List α)
    (load_forecast : List α → Bool)
    (input : InputFiles) : Bool :=
  match input.sales with
  | none =>
    run_forecast read_file validate_forecast normalize_forecast load_forecast input.forecast
  | some regions =>
    let all_sales := regions.foldl (fun acc rp =>
      match read_file rp.2 with
      | none => acc
      | some df =>
        if df.isEmpty then acc
        else
          let v := validate_sales df
          if v.isEmpty then acc
          else
            let n := normalize_sales v rp.2
            if n.isEmpty then acc else acc ++ [n]) []
    if all_sales.isEmpty then false
    else if load_sales all_sales.flatten then
      run_forecast read_file validate_forecast normalize_forecast load_forecast input.forecast
    else false

/-- C9: a run whose input_files mapping has neither a sales nor a
forecast entry returns True — indistinguishable at the public interface
from a fully successful load — whatever the collaborators do. -/
theorem run_without_inputs_returns_true :
    ∀ (α : Type) (read_file : String → Option (List α))
      (validate_sales : List α → List α)
      (normalize_sales : List α → String → List α)
      (load_sales : List α → Bool)
      (validate_forecast : List α → List α)
      (normalize_forecast : List α → List α)
      (load_forecast : List α → Bool),
      ETLPipeline_run read_file validate_sales normalize_sales load_sales
        validate_forecast normalize_forecast load_forecast ⟨none, none⟩ = true := by
  intros
  rfl

/-! ## Dimension store and loader (DatabaseLoader._load_dimensions,
DatabaseLoader._get_dimension_id) -/

/-- Helper for dedupFirst: keep the elements not yet seen, first
occurrences first. -/
def dedupFirstAux {α : Type} [DecidableEq α] (seen : List α) : List α → List α
  | [] => []
  | x :: rest =>
    if x ∈ seen then dedupFirstAux seen rest
    else x :: dedupFirstAux (x :: seen) rest

/-- pandas drop_duplicates / Series.unique: keep first occurrences. -/
def dedupFirst {α : Type} [DecidableEq α] (l : List α) : List α :=
  dedupFirstAux [] l

lemma mem_dedupFirstAux {α : Type} [DecidableEq α] {a : α} :
    ∀ (l seen : List α), a ∈ dedupFirstAux seen l ↔ a ∈ l ∧ a ∉ seen := by
  intro l
  induction l with
  | nil => intro seen; simp [dedupFirstAux]
  | cons x rest ih =>
    intro seen
    rw [dedupFirstAux]
    by_cases hx : x ∈ seen
    · rw [if_pos hx]
      rw [ih seen]
      simp only [List.mem_cons]
      constructor
      · rintro ⟨h1, h2⟩
        exact ⟨Or.inr h1, h2⟩
      · rintro ⟨h1, h2⟩
        rcases h1 with rfl | h1
        · exact absurd hx h2
        · exact ⟨h1, h2⟩
    · rw [if_neg hx]
      simp only [List.mem_cons, ih (x :: seen), List.mem_cons]
      by_cases hax : a = x
      · simp [hax, hx]
      · simp only [hax, false_or]

lemma mem_dedupFirst {α : Type} [DecidableEq α] {a : α} :
    ∀ l : List α, a ∈ dedupFirst l ↔ a ∈ l := by
  intro l
  rw [dedupFirst, mem_dedupFirstAux]
  simp

lemma nodup_dedupFirstAux {α : Type} [DecidableEq α] :
    ∀ (l seen : List α), (dedupFirstAux seen l).Nodup := by
  intro l
  induction l with
  | nil => intro seen; simp [dedupFirstAux]
  | cons x rest ih =>
    intro seen
    rw [dedupFirstAux]
    by_cases hx : x ∈ seen
    · rw [if_pos hx]
      exact ih seen
    · rw [if_neg hx]
      refine List.nodup_cons.mpr ⟨?_, ih (x :: seen)⟩
      intro hmem
      exact ((mem_dedupFirstAux rest (x :: seen)).mp hmem).2 (List.mem_cons_self x seen)

lemma nodup_dedupFirst {α : Type} [DecidableEq α] (l : List α) : (dedupFirst l).Nodup :=
  nodup_dedupFirstAux l []

/-- The material half of DatabaseLoader._load_dimensions: dedup the
incoming material_number column, standardize it, standardize the stored
column identically, and append only the keys not already present.
The store list is the dim_material material_number column in insertion
order. -/
def load_materials (store input : List String) : List String :=
  store ++ ((dedupFirst input).map standardize_material).filter
    (fun m => decide (m ∉ store.map standardize_material))

/-- The shared tail of the time half of _load_dimensions: append the
candidate (period, year) rows whose period is not already stored. -/
def append_new_periods (store periods : List (String × Int)) : List (String × Int) :=
  store ++ periods.filter (fun q => decide (q.1 ∉ store.map Prod.fst))

/-- Time half for sales input: candidates are the deduplicated
(period, year) pairs of the incoming frame. -/
def load_times_sales (store input : List (String × Int)) : List (String × Int) :=
  append_new_periods store (dedupFirst input)

/-- Time half for forecast input: unique years of the incoming frame,
sorted ascending, each expanded to (str(year) + ".01", year). -/
def load_times_forecast (store : List (String × Int)) (mdf : List (String × Int)) :
    List (String × Int) :=
  append_new_periods store
    ((List.insertionSort (fun a b => a ≤ b) (dedupFirst (mdf.map Prod.snd))).map
      (fun y => (toString y ++ ".01", y)))

/-- Modelled from the spec: surrogate-id assignment. The schema file
sql/schema.sql is not in the repository; spec section 6 fixes
dim_material(material_id PK surrogate, material_number unique), realized
here as the 1-based insertion position of the row. The pairs are the
(standardized key, id) rows read back by _get_dimension_id. -/
def material_pairs_from (i : Nat) : List String → List (String × Nat)
  | [] => []
  | m :: rest => (standardize_material m, i + 1) :: material_pairs_from (i + 1) rest

def material_pairs (store : List String) : List (String × Nat) :=
  material_pairs_from 0 store

/-- Modelled from the spec: dim_time(time_id PK surrogate, period unique)
read back as (period, id) pairs, ids again 1-based insertion positions. -/
def time_pairs_from (i : Nat) : List (String × Int) → List (String × Nat)
  | [] => []
  | q :: rest => (q.1, i + 1) :: time_pairs_from (i + 1) rest

def time_pairs (store : List (String × Int)) : List (String × Nat) :=
  time_pairs_from 0 store

/-- Python dict(zip(keys, ids)): on duplicate keys the last binding wins,
so lookup prefers the rightmost pair. -/
def dlookup : List (String × Nat) → String → Option Nat
  | [], _ => none
  | q :: rest, k =>
    match dlookup rest k with
    | some v => some v
    | none => if q.1 = k then some q.2 else none

/-- Series.map(id_map) followed by the isna().any() gate of
_get_dimension_id: some ids exactly when every value maps. -/
def mapAllIds (ps : List (String × Nat)) : List String → Option (List Nat)
  | [] => some []
  | v :: rest =>
    match dlookup ps v, mapAllIds ps rest with
    | some i, some l => some (i :: l)
    | _, _ => none

/-- DatabaseLoader._get_dimension_id for dim_material: standardize the
lookup values, standardize the stored keys, build the id map; on any
miss, insert the missing keys via _load_dimensions and recurse on the
grown store. The recursion in the code carries no counter; fuel makes
the embedding total, and fuel 2 is proved sufficient below. Returns the
ids and the store the successful lookup ran against. -/
def get_material_ids : Nat → List String → List String → Option (List Nat × List String)
  | 0, _, _ => none
  | fuel + 1, store, values =>
    match mapAllIds (material_pairs store) (values.map standardize_material) with
    | some ids => some (ids, store)
    | none =>
      get_material_ids fuel
        (load_materials store
          (dedupFirst ((values.map standardize_material).filter
            (fun v => decide (v ∉ (material_pairs store).map Prod.fst))))) values

lemma material_pairs_from_keys : ∀ (l : List String) (i : Nat),
    (material_pairs_from i l).map Prod.fst = l.map standardize_material := by
  intro l
  induction l with
  | nil => intro i; rfl
  | cons m rest ih =>
    intro i
    simp [material_pairs_from, ih]

lemma material_pairs_keys (store : List String) :
    (material_pairs store).map Prod.fst = store.map standardize_material :=
  material_pairs_from_keys store 0

lemma time_pairs_from_keys : ∀ (l : List (String × Int)) (i : Nat),
    (time_pairs_from i l).map Prod.fst = l.map Prod.fst := by
  intro l
  induction l with
  | nil => intro i; rfl
  | cons q rest ih =>
    intro i
    simp [time_pairs_from, ih]

lemma time_pairs_keys (store : List (String × Int)) :
    (time_pairs store).map Prod.fst = store.map Prod.fst :=
  time_pairs_from_keys store 0

lemma dlookup_isSome : ∀ (ps : List (String × Nat)) (k : String),
    (dlookup ps k).isSome = true ↔ k ∈ ps.map Prod.fst := by
  intro ps k
  induction ps with
  | nil => simp [dlookup]
  | cons q rest ih =>
    rw [dlookup]
    cases h : dlookup rest k with
    | some v =>
      simp only [Option.isSome_some, true_iff]
      have : k ∈ rest.map Prod.fst := ih.mp (by rw [h]; rfl)
      simp [this]
    | none =>
      have hrest : ¬ k ∈ rest.map Prod.fst := by
        rw [← ih, h]
        simp
      by_cases hq : q.1 = k
      · simp [hq, hrest]
      · simp [hq, hrest, Ne.symm hq]

lemma dlookup_eq_none {ps : List (String × Nat)} {k : String}
    (h : k ∉ ps.map Prod.fst) : dlookup ps k = none := by
  rw [← Option.not_isSome_iff_eq_none]
  intro hs
  exact h ((dlookup_isSome ps k).mp hs)

lemma dlookup_isSome_of_mem {ps : List (String × Nat)} {k : String}
    (h : k ∈ ps.map Prod.fst) : ∃ v, dlookup ps k = some v := by
  have := (dlookup_isSome ps k).mpr h
  exact Option.isSome_iff_exists.mp this

lemma dlookup_append_right_none {b : List (String × Nat)} {k : String}
    (h : dlookup b k = none) : ∀ a, dlookup (a ++ b) k = dlookup a k := by
  intro a
  induction a with
  | nil => simpa [dlookup]
  | cons q a ih =>
    rw [List.cons_append, dlookup, ih, dlookup]

lemma material_pairs_from_append : ∀ (a b : List String) (i : Nat),
    material_pairs_from i (a ++ b) =
      material_pairs_from i a ++ material_pairs_from (i + a.length) b := by
  intro a
  induction a with
  | nil => intro b i; simp [material_pairs_from]
  | cons m rest ih =>
    intro b i
    rw [List.cons_append, material_pairs_from, ih, material_pairs_from]
    have : i + 1 + rest.length = i + (m :: rest).length := by
      simp [List.length_cons]
      omega
    rw [this, List.cons_append]

lemma time_pairs_from_append : ∀ (a b : List (String × Int)) (i : Nat),
    time_pairs_from i (a ++ b) =
      time_pairs_from i a ++ time_pairs_from (i + a.length) b := by
  intro a
  induction a with
  | nil => intro b i; simp [time_pairs_from]
  | cons q rest ih =>
    intro b i
    rw [List.cons_append, time_pairs_from, ih, time_pairs_from]
    have : i + 1 + rest.length = i + (q :: rest).length := by
      simp [List.length_cons]
      omega
    rw [this, List.cons_append]

lemma dlookup_material_stable {s newl : List String} {k : String}
    (h : k ∉ newl.map standardize_material) :
    dlookup (material_pairs (s ++ newl)) k = dlookup (material_pairs s) k := by
  rw [material_pairs, material_pairs_from_append]
  exact dlookup_append_right_none
    (dlookup_eq_none (by rwa [material_pairs_from_keys])) _

lemma dlookup_time_stable {s newl : List (String × Int)} {k : String}
    (h : k ∉ newl.map Prod.fst) :
    dlookup (time_pairs (s ++ newl)) k = dlookup (time_pairs s) k := by
  rw [time_pairs, time_pairs_from_append]
  exact dlookup_append_right_none
    (dlookup_eq_none (by rwa [time_pairs_from_keys])) _

lemma map_std_of_fixed : ∀ {l : List String},
    (∀ m ∈ l, standardize_material m = m) → l.map standardize_material = l := by
  intro l
  induction l with
  | nil => intro _; rfl
  | cons m rest ih =>
    intro h
    rw [List.map_cons, h m (List.mem_cons_self m rest),
      ih (fun x hx => h x (List.mem_cons_of_mem m hx))]

lemma load_materials_eq (store input : List String) :
    load_materials store input = store ++
      ((dedupFirst input).map standardize_material).filter
        (fun m => decide (m ∉ store.map standardize_material)) := rfl

lemma load_times_sales_eq (store input : List (String × Int)) :
    load_times_sales store input = store ++
      (dedupFirst input).filter (fun q => decide (q.1 ∉ store.map Prod.fst)) := rfl

lemma count_load_materials {s input : List String} {k : String}
    (hin : ∀ m ∈ input, standardize_material m = m)
    (hk : k ∈ input)
    (hcnt : (s.map standardize_material).count k ≤ 1) :
    ((load_materials s input).map standardize_material).count k = 1 := by
  have hmats : (dedupFirst input).map standardize_material = dedupFirst input :=
    map_std_of_fixed (fun m hm => hin m ((mem_dedupFirst input).mp hm))
  rw [load_materials, hmats]
  set newl := (dedupFirst input).filter
    (fun m => decide (m ∉ s.map standardize_material)) with hnewl
  have hnewfix : ∀ m ∈ newl, standardize_material m = m := by
    intro m hm
    exact hin m ((mem_dedupFirst input).mp (List.mem_filter.mp hm).1)
  rw [List.map_append, List.count_append, map_std_of_fixed hnewfix]
  by_cases hks : k ∈ s.map standardize_material
  · have h0 : newl.count k = 0 := by
      rw [List.count_eq_zero]
      intro hkn
      have hpred := (List.mem_filter.mp hkn).2
      simp only [decide_eq_true_eq] at hpred
      exact hpred hks
    have hne : (s.map standardize_material).count k ≠ 0 :=
      fun h => (List.count_eq_zero.mp h) hks
    omega
  · have h0 : (s.map standardize_material).count k = 0 := List.count_eq_zero.mpr hks
    have h1 : newl.count k = (dedupFirst input).count k := by
      apply List.count_filter
      simp [hks]
    have h2 : (dedupFirst input).count k = 1 :=
      List.count_eq_one_of_mem (nodup_dedupFirst input) ((mem_dedupFirst input).mpr hk)
    omega

lemma count_fst_eq_one : ∀ {l : List (String × Int)} {p : String × Int},
    (∀ q ∈ l, q.1 = p.1 → q = p) → l.Nodup → p ∈ l →
    (l.map Prod.fst).count p.1 = 1 := by
  intro l
  induction l with
  | nil => intro p _ _ h; simp at h
  | cons q rest ih =>
    intro p hfun hnd hp
    rw [List.map_cons, List.count_cons]
    rcases List.mem_cons.mp hp with heq | hp2
    · subst heq
      have hrest0 : p.1 ∉ rest.map Prod.fst := by
        intro hmem
        obtain ⟨r, hr, hre⟩ := List.mem_map.mp hmem
        have : r = p := hfun r (List.mem_cons_of_mem _ hr) hre
        subst this
        exact (List.nodup_cons.mp hnd).1 hr
      rw [List.count_eq_zero.mpr hrest0]
      simp
    · have hq1 : q.1 ≠ p.1 := by
        intro he
        have : q = p := hfun q (List.mem_cons_self _ _) he
        subst this
        exact (List.nodup_cons.mp hnd).1 hp2
      rw [ih (fun r hr hre => hfun r (List.mem_cons_of_mem _ hr) hre)
        (List.nodup_cons.mp hnd).2 hp2]
      simp [hq1]

lemma count_load_times {t input : List (String × Int)} {p : String × Int}
    (hp : p ∈ input)
    (hfun : ∀ q ∈ input, q.1 = p.1 → q = p)
    (hcnt : (t.map Prod.fst).count p.1 ≤ 1) :
    ((load_times_sales t input).map Prod.fst).count p.1 = 1 := by
  rw [load_times_sales, append_new_periods]
  set newl := (dedupFirst input).filter
    (fun q => decide (q.1 ∉ t.map Prod.fst)) with hnewl
  rw [List.map_append, List.count_append]
  by_cases hkt : p.1 ∈ t.map Prod.fst
  · have h0 : (newl.map Prod.fst).count p.1 = 0 := by
      rw [List.count_eq_zero]
      intro hmem
      obtain ⟨q, hq, hqe⟩ := List.mem_map.mp hmem
      have hpred := (List.mem_filter.mp hq).2
      simp only [decide_eq_true_eq] at hpred
      rw [hqe] at hpred
      exact hpred hkt
    have hne : (t.map Prod.fst).count p.1 ≠ 0 :=
      fun h => (List.count_eq_zero.mp h) hkt
    omega
  · have h0 : (t.map Prod.fst).count p.1 = 0 := List.count_eq_zero.mpr hkt
    have h1 : (newl.map Prod.fst).count p.1 = 1 := by
      apply count_fst_eq_one
      · intro q hq hqe
        exact hfun q ((mem_dedupFirst input).mp (List.mem_filter.mp hq).1) hqe
      · exact List.Nodup.filter _ (nodup_dedupFirst input)
      · refine List.mem_filter.mpr ⟨(mem_dedupFirst input).mpr hp, ?_⟩
        simp [hkt]
    omega

/-- C1: dimension loads are idempotent on natural keys. Two successive
load calls whose (pre-standardized, as at every call site) inputs both
contain the key leave exactly one row for it, only ever append (never
update or delete), and the key resolves to the same surrogate id after
either call. Stated for dim_material (key: standardized material_number)
and dim_time (key: period), assuming the store held at most one row for
the key beforehand (true of every store these loads can build). -/
theorem dimension_load_idempotent :
    (∀ (s0 in1 in2 : List String) (k : String),
      (∀ m ∈ in1, standardize_material m = m) →
      (∀ m ∈ in2, standardize_material m = m) →
      k ∈ in1 → k ∈ in2 →
      (s0.map standardize_material).count k ≤ 1 →
      ((load_materials (load_materials s0 in1) in2).map standardize_material).count k = 1 ∧
      (∃ t1, load_materials s0 in1 = s0 ++ t1) ∧
      (∃ t2, load_materials (load_materials s0 in1) in2 = load_materials s0 in1 ++ t2) ∧
      (dlookup (material_pairs (load_materials s0 in1)) k).isSome = true ∧
      dlookup (material_pairs (load_materials (load_materials s0 in1) in2)) k =
        dlookup (material_pairs (load_materials s0 in1)) k) ∧
    (∀ (t0 u1 u2 : List (String × Int)) (p : String × Int),
      p ∈ u1 → p ∈ u2 →
      (∀ q ∈ u1, q.1 = p.1 → q = p) →
      (∀ q ∈ u2, q.1 = p.1 → q = p) →
      (t0.map Prod.fst).count p.1 ≤ 1 →
      ((load_times_sales (load_times_sales t0 u1) u2).map Prod.fst).count p.1 = 1 ∧
      (∃ t1, load_times_sales t0 u1 = t0 ++ t1) ∧
      (∃ t2, load_times_sales (load_times_sales t0 u1) u2 = load_times_sales t0 u1 ++ t2) ∧
      (dlookup (time_pairs (load_times_sales t0 u1)) p.1).isSome = true ∧
      dlookup (time_pairs (load_times_sales (load_times_sales t0 u1) u2)) p.1 =
        dlookup (time_pairs (load_times_sales t0 u1)) p.1) := by
  constructor
  · intro s0 in1 in2 k hin1 hin2 hk1 hk2 hcnt
    have hs1cnt := count_load_materials hin1 hk1 hcnt
    have hs2cnt := count_load_materials hin2 hk2 (le_of_eq hs1cnt)
    have hk_in_s1 : k ∈ (load_materials s0 in1).map standardize_material := by
      by_contra hno
      rw [List.count_eq_zero.mpr hno] at hs1cnt
      omega
    refine ⟨hs2cnt, ⟨_, rfl⟩, ⟨_, rfl⟩, ?_, ?_⟩
    · exact (dlookup_isSome _ k).mpr (by rwa [material_pairs_keys])
    · rw [load_materials_eq (load_materials s0 in1) in2]
      apply dlookup_material_stable
      intro hmem
      obtain ⟨m, hm, hmstd⟩ := List.mem_map.mp hmem
      have hmfix : standardize_material m = m := by
        obtain ⟨x, _, rfl⟩ := List.mem_map.mp (List.mem_filter.mp hm).1
        exact standardize_material_idem x
      rw [hmfix] at hmstd
      subst hmstd
      have hpred := (List.mem_filter.mp hm).2
      simp only [decide_eq_true_eq] at hpred
      exact hpred hk_in_s1
  · intro t0 u1 u2 p hp1 hp2 hfun1 hfun2 hcnt
    have ht1cnt := count_load_times hp1 hfun1 hcnt
    have ht2cnt := count_load_times hp2 hfun2 (le_of_eq ht1cnt)
    have hp_in_t1 : p.1 ∈ (load_times_sales t0 u1).map Prod.fst := by
      by_contra hno
      rw [List.count_eq_zero.mpr hno] at ht1cnt
      omega
    refine ⟨ht2cnt, ⟨_, rfl⟩, ⟨_, rfl⟩, ?_, ?_⟩
    · exact (dlookup_isSome _ p.1).mpr (by rwa [time_pairs_keys])
    · rw [load_times_sales_eq (load_times_sales t0 u1) u2]
      apply dlookup_time_stable
      intro hmem
      obtain ⟨q, hq, hqe⟩ := List.mem_map.mp hmem
      have hpred := (List.mem_filter.mp hq).2
      simp only [decide_eq_true_eq] at hpred
      rw [hqe] at hpred
      exact hpred hp_in_t1

/-- Witness for C1: a fresh store, the standardized key "00000042" loaded
twice, and the period ("2023.01", 2023) loaded twice. -/
theorem dimension_load_idempotent_witness :
    ((load_materials (load_materials [] ["00000042"]) ["00000042"]).map
        standardize_material).count "00000042" = 1 ∧
    ((load_times_sales (load_times_sales [] [("2023.01", 2023)])
        [("2023.01", 2023)]).map Prod.fst).count "2023.01" = 1 :=
  ⟨(dimension_load_idempotent.1 [] ["00000042"] ["00000042"] "00000042"
      (by decide) (by decide) (by decide) (by decide) (by decide)).1,
    (dimension_load_idempotent.2 [] [("2023.01", 2023)] [("2023.01", 2023)]
      ("2023.01", 2023) (by decide) (by decide) (by decide) (by decide) (by decide)).1⟩

lemma mapAllIds_isSome_of_keys {ps : List (String × Nat)} :
    ∀ {l : List String}, (∀ v ∈ l, v ∈ ps.map Prod.fst) →
      ∃ out, mapAllIds ps l = some out := by
  intro l
  induction l with
  | nil => intro _; exact ⟨[], rfl⟩
  | cons v rest ih =>
    intro h
    obtain ⟨i, hi⟩ := dlookup_isSome_of_mem (h v (List.mem_cons_self v rest))
    obtain ⟨out, hout⟩ := ih (fun x hx => h x (List.mem_cons_of_mem v hx))
    refine ⟨i :: out, ?_⟩
    rw [mapAllIds, hi, hout]

/-- After the self-heal insert of _get_dimension_id, every standardized
lookup value is present among the store's standardized keys. -/
lemma keys_after_self_heal (store values : List String) :
    ∀ v ∈ values.map standardize_material,
      v ∈ (material_pairs (load_materials store
        (dedupFirst ((values.map standardize_material).filter
          (fun x => decide (x ∉ (material_pairs store).map Prod.fst)))))).map Prod.fst := by
  intro v hv
  have hvfix : standardize_material v = v := by
    obtain ⟨x, _, rfl⟩ := List.mem_map.mp hv
    exact standardize_material_idem x
  rw [material_pairs_keys]
  by_cases hs : v ∈ store.map standardize_material
  · rw [load_materials_eq, List.map_append]
    exact List.mem_append.mpr (Or.inl hs)
  · rw [load_materials_eq, List.map_append]
    refine List.mem_append.mpr (Or.inr ?_)
    have hvmissing : v ∈ dedupFirst ((values.map standardize_material).filter
        (fun x => decide (x ∉ (material_pairs store).map Prod.fst))) := by
      apply (mem_dedupFirst _).mpr
      refine List.mem_filter.mpr ⟨hv, ?_⟩
      rw [material_pairs_keys]
      simp [hs]
    refine List.mem_map.mpr ⟨v, ?_, hvfix⟩
    refine List.mem_filter.mpr ⟨?_, ?_⟩
    · exact List.mem_map.mpr ⟨v, (mem_dedupFirst _).mpr hvmissing, hvfix⟩
    · simp [hs]

lemma get_material_ids_succ (fuel : Nat) (store values : List String) :
    get_material_ids (fuel + 1) store values =
      match mapAllIds (material_pairs store) (values.map standardize_material) with
      | some ids => some (ids, store)
      | none => get_material_ids fuel
          (load_materials store
            (dedupFirst ((values.map standardize_material).filter
              (fun v => decide (v ∉ (material_pairs store).map Prod.fst))))) values := rfl

lemma get_material_ids_succ_some (fuel : Nat) {store values : List String}
    {ids : List Nat}
    (h : mapAllIds (material_pairs store) (values.map standardize_material) = some ids) :
    get_material_ids (fuel + 1) store values = some (ids, store) := by
  rw [get_material_ids_succ, h]

lemma get_material_ids_succ_none (fuel : Nat) {store values : List String}
    (h : mapAllIds (material_pairs store) (values.map standardize_material) = none) :
    get_material_ids (fuel + 1) store values = get_material_ids fuel
      (load_materials store
        (dedupFirst ((values.map standardize_material).filter
          (fun v => decide (v ∉ (material_pairs store).map Prod.fst))))) values := by
  rw [get_material_ids_succ, h]

/-- With fuel for one insert-and-retry cycle, material resolution always
returns ids (the claims C2 and C10 rest on this). -/
lemma get_material_ids_two (store values : List String) :
    ∃ out, get_material_ids 2 store values = some out := by
  show ∃ out, get_material_ids (1 + 1) store values = some out
  cases h : mapAllIds (material_pairs store) (values.map standardize_material) with
  | some ids => exact ⟨(ids, store), get_material_ids_succ_some 1 h⟩
  | none =>
    obtain ⟨out2, hout2⟩ := mapAllIds_isSome_of_keys (keys_after_self_heal store values)
    refine ⟨(out2, load_materials store
      (dedupFirst ((values.map standardize_material).filter
        (fun v => decide (v ∉ (material_pairs store).map Prod.fst))))), ?_⟩
    rw [get_material_ids_succ_none 1 h]
    exact get_material_ids_succ_some 0 hout2

/-- C2: material-id resolution with the self-heal insert terminates
within a single insert-and-retry cycle: with fuel for one retry it
returns ids for every store and every value list (the inserted keys make
the retry's lookup total, so the would-be second retry is unreachable),
and granting any extra fuel never changes the result — the recursion
never loops. -/
theorem material_resolution_single_retry :
    ∀ store values : List String,
      (∃ out, get_material_ids 2 store values = some out) ∧
      (∀ n : Nat, get_material_ids (n + 2) store values = get_material_ids 2 store values) := by
  intro store values
  refine ⟨get_material_ids_two store values, ?_⟩
  intro n
  show get_material_ids (n + 1 + 1) store values = get_material_ids (1 + 1) store values
  cases h : mapAllIds (material_pairs store) (values.map standardize_material) with
  | some ids =>
    rw [get_material_ids_succ_some (n + 1) h, get_material_ids_succ_some 1 h]
  | none =>
    obtain ⟨out2, hout2⟩ := mapAllIds_isSome_of_keys (keys_after_self_heal store values)
    rw [get_material_ids_succ_none (n + 1) h, get_material_ids_succ_none 1 h]
    rw [get_material_ids_succ_some n hout2]
    exact (get_material_ids_succ_some 0 hout2).symm

/-! ## Fact loads (DatabaseLoader.load_sales_data, load_forecast_data) -/

/-- The warehouse: the two append-only dimension columns and the two
fact tables. -/
structure Db where
  materials : List String
  times : List (String × Int)
  fact_sales : List (Nat × Nat × Option String × ℚ × ℚ)
  fact_forecast : List (Nat × Nat × ℚ)
deriving DecidableEq

/-- The caller's sales frame as load_sales_data receives it; the year
column may be absent (loader.py line 172 guards on it). -/
structure SalesLoadDf where
  material_number : List String
  period : List String
  region_code : List (Option String)
  gross_sales : List ℚ
  net_sales : List ℚ
  year : Option (List Int)
deriving DecidableEq

/-- DatabaseLoader.load_sales_data: standardize the caller's
material_number column in place, load dimensions, resolve ids, append
the fact rows. A missing dim_time mapping raises, the handler returns
False, and the transaction scope rolls the store back — but the frame
mutation survives. -/
def load_sales_data (df : SalesLoadDf) (db : Db) : Bool × SalesLoadDf × Db :=
  let df1 : SalesLoadDf :=
    { df with material_number := df.material_number.map standardize_material }
  let mats1 := load_materials db.materials df1.material_number
  let times1 :=
    match df1.year with
    | none => db.times
    | some ys => load_times_sales db.times (df1.period.zip ys)
  match get_material_ids 2 mats1 df1.material_number with
  | none => (false, df1, db)
  | some (mids, mats2) =>
    match mapAllIds (time_pairs times1) df1.period with
    | none => (false, df1, db)
    | some tids =>
      (true, df1,
        { materials := mats2, times := times1,
          fact_sales := db.fact_sales ++
            mids.zip (tids.zip (df1.region_code.zip (df1.gross_sales.zip df1.net_sales))),
          fact_forecast := db.fact_forecast })

/-- The caller's forecast frame: the three incoming columns plus the
three columns the load itself writes into the caller's frame. -/
structure ForecastDf where
  material_number : List String
  year : List Int
  forecast_value : List (Option ℚ)
  period : Option (List String)
  material_id : Option (List Nat)
  time_id : Option (List Nat)
deriving DecidableEq

/-- DatabaseLoader.load_forecast_data: standardize material_number in
place, load dimensions from the material-year cross product, then write
material_id, period and time_id into the caller's frame, drop null
forecast rows from a copy, and fail (False) when nothing loadable
remains — with the dimension writes already committed. -/
def load_forecast_data (df : ForecastDf) (db : Db) : Bool × ForecastDf × Db :=
  let df1 : ForecastDf :=
    { df with material_number := df.material_number.map standardize_material }
  let mdf := (dedupFirst df1.material_number).flatMap
    (fun m => (dedupFirst df1.year).map (fun y => (m, y)))
  let mats1 := load_materials db.materials (mdf.map Prod.fst)
  let times1 := load_times_forecast db.times mdf
  match get_material_ids 2 mats1 df1.material_number with
  | none => (false, df1, db)
  | some (mids, mats2) =>
    let df2 : ForecastDf := { df1 with material_id := some mids }
    let df3 : ForecastDf :=
      { df2 with period := some (df1.year.map (fun y => toString y ++ ".01")) }
    match mapAllIds (time_pairs times1) (df1.year.map (fun y => toString y ++ ".01")) with
    | none => (false, df3, db)
    | some tids =>
      let df4 : ForecastDf := { df3 with time_id := some tids }
      let facts := (mids.zip (tids.zip df1.forecast_value)).filterMap
        (fun r => match r.2.2 with
          | some q => some (r.1, r.2.1, q)
          | none => none)
      if facts.isEmpty then
        (false, df4,
          { materials := mats2, times := times1,
            fact_sales := db.fact_sales, fact_forecast := db.fact_forecast })
      else
        (true, df4,
          { materials := mats2, times := times1,
            fact_sales := db.fact_sales, fact_forecast := db.fact_forecast ++ facts })

/-- Every synthesized forecast period is a key of the time dimension
after the forecast dimension load. -/
lemma forecast_time_keys (tstore : List (String × Int)) (mats : List String)
    (years : List Int) (hne : years ≠ [] → mats ≠ []) :
    ∀ per ∈ years.map (fun y => toString y ++ ".01"),
      per ∈ (time_pairs (load_times_forecast tstore
        (mats.flatMap (fun m => (dedupFirst years).map (fun y => (m, y)))))).map
          Prod.fst := by
  intro per hper
  obtain ⟨y, hy, rfl⟩ := List.mem_map.mp hper
  rw [time_pairs_keys, load_times_forecast, append_new_periods, List.map_append]
  by_cases hst : toString y ++ ".01" ∈ tstore.map Prod.fst
  · exact List.mem_append.mpr (Or.inl hst)
  · refine List.mem_append.mpr (Or.inr ?_)
    have hmats : mats ≠ [] := hne (fun h => by simp [h] at hy)
    have hysnd : y ∈ (mats.flatMap
        (fun m => (dedupFirst years).map (fun yy => (m, yy)))).map Prod.snd := by
      cases mats with
      | nil => exact absurd rfl hmats
      | cons m rest =>
        refine List.mem_map.mpr ⟨(m, y), ?_, rfl⟩
        refine List.mem_flatMap.mpr ⟨m, List.mem_cons_self m rest, ?_⟩
        exact List.mem_map.mpr ⟨y, (mem_dedupFirst years).mpr hy, rfl⟩
    have hsorted : y ∈ List.insertionSort (fun a b => a ≤ b)
        (dedupFirst ((mats.flatMap
          (fun m => (dedupFirst years).map (fun yy => (m, yy)))).map Prod.snd)) :=
      (List.mem_insertionSort _).mpr ((mem_dedupFirst _).mpr hysnd)
    refine List.mem_map.mpr ⟨(toString y ++ ".01", y), ?_, rfl⟩
    refine List.mem_filter.mpr ⟨?_, ?_⟩
    · exact List.mem_map.mpr ⟨y, hsorted, rfl⟩
    · simp [hst]

/-- C10: both fact loads mutate the caller's frame in place: the
material_number column is replaced by its standardized form always (also
on every False return), and the forecast load additionally writes the
period, material_id and time_id columns into the caller's frame; the
concrete run shows a load that returns False with the caller's frame
mutated and the dimension rows committed. -/
theorem load_mutates_caller_frame :
    (∀ (df : SalesLoadDf) (db : Db),
      ((load_sales_data df db).2.1).material_number =
        df.material_number.map standardize_material) ∧
    (∀ (df : ForecastDf) (db : Db), df.material_number.length = df.year.length →
      ((load_forecast_data df db).2.1).material_number =
        df.material_number.map standardize_material ∧
      ((load_forecast_data df db).2.1).period =
        some (df.year.map (fun y => toString y ++ ".01")) ∧
      ((load_forecast_data df db).2.1).material_id.isSome = true ∧
      ((load_forecast_data df db).2.1).time_id.isSome = true) ∧
    load_forecast_data ⟨["42"], [2024], [none], none, none, none⟩ ⟨[], [], [], []⟩ =
      (false, ⟨["00000042"], [2024], [none], some ["2024.01"], some [1], some [1]⟩,
        ⟨["00000042"], [("2024.01", 2024)], [], []⟩) := by
  refine ⟨?_, ?_, ?_⟩
  · intro df db
    simp only [load_sales_data]
    split
    · rfl
    · split
      · rfl
      · rfl
  · intro df db hlen
    obtain ⟨⟨mids, mats2⟩, hm⟩ := get_material_ids_two
      (load_materials db.materials
        (((dedupFirst (df.material_number.map standardize_material)).flatMap
          (fun m => (dedupFirst df.year).map (fun y => (m, y)))).map Prod.fst))
      (df.material_number.map standardize_material)
    have hne : df.year ≠ [] → dedupFirst (df.material_number.map standardize_material) ≠ [] := by
      intro hy hd
      have h1 : df.material_number.map standardize_material = [] := by
        cases hmn : df.material_number.map standardize_material with
        | nil => rfl
        | cons a l =>
          rw [hmn, dedupFirst, dedupFirstAux] at hd
          simp at hd
      have h2 : df.material_number = [] := List.map_eq_nil_iff.mp h1
      rw [h2] at hlen
      exact hy (List.eq_nil_of_length_eq_zero hlen.symm)
    obtain ⟨tids, ht⟩ := mapAllIds_isSome_of_keys
      (forecast_time_keys db.times (dedupFirst (df.material_number.map standardize_material))
        df.year hne)
    simp only [load_forecast_data, hm, ht]
    split
    · exact ⟨rfl, rfl, rfl, rfl⟩
    · exact ⟨rfl, rfl, rfl, rfl⟩
  · decide

/-- Witness for C10: the forecast-frame mutation facts at the concrete
single-row frame and empty store. -/
theorem load_mutates_caller_frame_witness :
    ((load_forecast_data ⟨["42"], [2024], [none], none, none, none⟩
        ⟨[], [], [], []⟩).2.1).material_number = ["42"].map standardize_material ∧
    ((load_forecast_data ⟨["42"], [2024], [none], none, none, none⟩
        ⟨[], [], [], []⟩).2.1).period = some ([2024].map (fun y => toString y ++ ".01")) ∧
    ((load_forecast_data ⟨["42"], [2024], [none], none, none, none⟩
        ⟨[], [], [], []⟩).2.1).material_id.isSome = true ∧
    ((load_forecast_data ⟨["42"], [2024], [none], none, none, none⟩
        ⟨[], [], [], []⟩).2.1).time_id.isSome = true :=
  load_mutates_caller_frame.2.1 ⟨["42"], [2024], [none], none, none, none⟩
    ⟨[], [], [], []⟩ (by decide)

end ETL
